import Mathlib

/-!
Verification of the kubectl-dispatcher version-resolution and binary-dispatch
engine, shallowly embedded from the Go sources:
  pkg/filepath/builder.go, pkg/dispatcher/dispatcher.go, pkg/client/version.go,
  pkg/util (FilterList, RemoveAllElements, CopyStrSlice), cmd/kubectl/kubectl.go.
Go strings are modelled as lists of characters (Go ranges over runes), machine
integers as Nat/Int with explicit 64-bit bounds where strconv applies them.
-/

/-- Go strings, modelled as the list of their runes. -/
abbrev Str := List Char

/-- Convert a Lean string literal into the Go string model. -/
def str (s : String) : Str := s.data

/-- unicode.IsSpace: the White_Space code points recognized by Go
(space, tab, newline, vertical tab, form feed, carriage return, NEL,
NBSP, and the Unicode space separators). -/
def goIsSpace (c : Char) : Bool :=
  c == ' ' || c == '\t' || c == '\n' || c == Char.ofNat 11 || c == Char.ofNat 12 ||
  c == '\r' || c == Char.ofNat 0x85 || c == Char.ofNat 0xA0 || c == Char.ofNat 0x1680 ||
  (decide (0x2000 ≤ c.toNat) && decide (c.toNat ≤ 0x200A)) ||
  c == Char.ofNat 0x2028 || c == Char.ofNat 0x2029 || c == Char.ofNat 0x202F ||
  c == Char.ofNat 0x205F || c == Char.ofNat 0x3000

/-- The code point ranges of the Unicode decimal digit category Nd, as in the
unicode package tables (ASCII digits, Arabic-Indic, Devanagari and the other
positional decimal scripts, including the supplementary planes). -/
def ndRanges : List (Nat × Nat) :=
  [(0x30, 0x39), (0x660, 0x669), (0x6F0, 0x6F9), (0x7C0, 0x7C9),
   (0x966, 0x96F), (0x9E6, 0x9EF), (0xA66, 0xA6F), (0xAE6, 0xAEF),
   (0xB66, 0xB6F), (0xBE6, 0xBEF), (0xC66, 0xC6F), (0xCE6, 0xCEF),
   (0xD66, 0xD6F), (0xDE6, 0xDEF), (0xE50, 0xE59), (0xED0, 0xED9),
   (0xF20, 0xF29), (0x1040, 0x1049), (0x1090, 0x1099), (0x17E0, 0x17E9),
   (0x1810, 0x1819), (0x1946, 0x194F), (0x19D0, 0x19D9), (0x1A80, 0x1A89),
   (0x1A90, 0x1A99), (0x1B50, 0x1B59), (0x1BB0, 0x1BB9), (0x1C40, 0x1C49),
   (0x1C50, 0x1C59), (0xA620, 0xA629), (0xA8D0, 0xA8D9), (0xA900, 0xA909),
   (0xA9D0, 0xA9D9), (0xA9F0, 0xA9F9), (0xAA50, 0xAA59), (0xABF0, 0xABF9),
   (0xFF10, 0xFF19), (0x104A0, 0x104A9), (0x10D30, 0x10D39),
   (0x11066, 0x1106F), (0x110F0, 0x110F9), (0x11136, 0x1113F),
   (0x111D0, 0x111D9), (0x112F0, 0x112F9), (0x11450, 0x11459),
   (0x114D0, 0x114D9), (0x11650, 0x11659), (0x116C0, 0x116C9),
   (0x11730, 0x11739), (0x118E0, 0x118E9), (0x11C50, 0x11C59),
   (0x11D50, 0x11D59), (0x11DA0, 0x11DA9), (0x16A60, 0x16A69),
   (0x16B50, 0x16B59), (0x1D7CE, 0x1D7FF), (0x1E950, 0x1E959)]

/-- unicode.IsDigit: membership in the decimal digit category Nd. This is
wider than the ASCII digits: the scan loop of normalizeVersionStr accumulates
any Nd digit into the run, and strconv.Atoi later rejects runs containing a
non-ASCII one. -/
def goIsDigit (c : Char) : Bool :=
  ndRanges.any fun p => decide (p.1 ≤ c.toNat) && decide (c.toNat ≤ p.2)

/-- The digit notion of strconv: the ASCII digits 0 through 9 only. -/
def isAsciiDigit (c : Char) : Bool :=
  '0' ≤ c && c ≤ '9'

/-- strings.TrimSpace: drop leading and trailing whitespace. -/
def trimSpace (l : Str) : Str :=
  ((l.dropWhile goIsSpace).reverse.dropWhile goIsSpace).reverse

/-- Decimal value of a run of ASCII digits. -/
def digitsToNat (l : Str) : Nat :=
  l.foldl (fun a c => 10 * a + (c.toNat - 48)) 0

/-- Largest value of the signed 64-bit type that strconv.Atoi parses into. -/
def int64Max : Nat := 9223372036854775807

/-- strconv.ParseUint base 10: nonempty strings of ASCII digits only. -/
def goParseUnsigned (l : Str) : Option Nat :=
  if l = [] then none
  else if l.all isAsciiDigit then some (digitsToNat l)
  else none

/-- strconv.Atoi: optional sign, decimal digits, 64-bit signed range check.
Out-of-range and malformed inputs yield none (the Go error). -/
def goAtoi (l : Str) : Option Int :=
  match l with
  | [] => none
  | c :: rest =>
    if c = '-' then
      (goParseUnsigned rest).bind fun n =>
        if n ≤ int64Max + 1 then some (-(n : Int)) else none
    else if c = '+' then
      (goParseUnsigned rest).bind fun n =>
        if n ≤ int64Max then some (n : Int) else none
    else
      (goParseUnsigned l).bind fun n =>
        if n ≤ int64Max then some (n : Int) else none

/-- isPositiveInteger from pkg/filepath/builder.go: Atoi must succeed and the
value must be strictly positive (zero is also not allowed). -/
def isPositiveInteger (l : Str) : Bool :=
  match goAtoi l with
  | none => false
  | some i => decide (0 < i)

/-- normalizeVersionStr from pkg/filepath/builder.go: trim whitespace, fail on
empty, accumulate the leading run of digits, fail if that run is empty. -/
def normalizeVersionStr (majorMinor : Str) : Except Str Str :=
  if trimSpace majorMinor = [] then
    Except.error (str "Empty server version major/minor string")
  else if (trimSpace majorMinor).takeWhile goIsDigit = [] then
    Except.error (str "Bad server version major/minor string")
  else
    Except.ok ((trimSpace majorMinor).takeWhile goIsDigit)

/-- The composite normalization applied to one version component, as performed
by getMajorVersion and getMinorVersion in pkg/filepath/builder.go:
normalizeVersionStr followed by the isPositiveInteger gate. The two Go
functions differ only in the wording of the failure message. -/
def normalizeComponent (l : Str) : Except Str Str :=
  match normalizeVersionStr l with
  | Except.error e => Except.error e
  | Except.ok versionStr =>
    if isPositiveInteger versionStr then Except.ok versionStr
    else Except.error (str "Bad version string")

/-- k8s.io/apimachinery version.Info: the remote version report. -/
structure VersionInfo where
  major : Str
  minor : Str
  gitVersion : Str
deriving DecidableEq

/-- getMajorVersion from pkg/filepath/builder.go; the argument is an optional
value standing for the possibly nil Go pointer. -/
def getMajorVersion (serverVersion : Option VersionInfo) : Except Str Str :=
  match serverVersion with
  | none => Except.error (str "server version is nil")
  | some v => normalizeComponent v.major

/-- getMinorVersion from pkg/filepath/builder.go. -/
def getMinorVersion (serverVersion : Option VersionInfo) : Except Str Str :=
  match serverVersion with
  | none => Except.error (str "server version is nil")
  | some v => normalizeComponent v.minor

deriving instance DecidableEq for Except

/-- True exactly on successful results. -/
def isOkB {α β : Type} (x : Except α β) : Bool :=
  match x with
  | Except.ok _ => true
  | Except.error _ => false

/-! ### path/filepath: Clean and Join (unix rules) -/

/-- Split a path into its slash-separated fields (empty fields kept). -/
def splitSlash : Str → List Str
  | [] => [[]]
  | c :: rest =>
    match splitSlash rest with
    | [] => [[c]]
    | h :: t => if c = '/' then [] :: h :: t else (c :: h) :: t

/-- The element-stack processing performed by filepath.Clean: empty and dot
elements vanish, dotdot pops a preceding element, dotdot at the root vanishes,
and dotdot at the head of a relative path is kept. -/
def processElems (rooted : Bool) (elems : List Str) : List Str :=
  (elems.foldl
    (fun stack e =>
      if e = [] ∨ e = ['.'] then stack
      else if e = ['.', '.'] then
        match stack with
        | [] => if rooted then [] else [['.', '.']]
        | top :: rest => if top = ['.', '.'] then e :: stack else rest
      else e :: stack)
    []).reverse

/-- filepath.Clean for unix paths: shortest lexically equivalent path. -/
def goClean (p : Str) : Str :=
  if p = [] then ['.']
  else if p.head? = some '/' then
    '/' :: List.intercalate ['/'] (processElems true (splitSlash p))
  else
    match List.intercalate ['/'] (processElems false (splitSlash p)) with
    | [] => ['.']
    | joined => joined

/-- filepath.Join: join the elements starting at the first nonempty one with
slashes and Clean the result; all-empty input gives the empty path. -/
def goJoin (elems : List Str) : Str :=
  match elems.dropWhile (fun e => e = []) with
  | [] => []
  | l => goClean (List.intercalate ['/'] l)

/-! ### pkg/filepath FilepathBuilder -/

/-- The outcome of the injected DirectoryGetter: the Go field may be nil
(none), or its CurrentDirectory call may return an error or a directory. -/
abbrev DirGetter := Option (Except Str Str)

/-- FilepathBuilder.currentDirectory from pkg/filepath/builder.go: empty
directory when the getter is nil or reports an error. -/
def currentDirectory (dirGetter : DirGetter) : Str :=
  match dirGetter with
  | none => []
  | some (Except.error _) => []
  | some (Except.ok dir) => dir

/-- The fixed default binary name. -/
def kubectlDefaultName : Str := str "kubectl.default"

/-- createKubectlBinaryFilename: dot-separated, never hyphenated (the Go
function also returns a never-used error value, elided here). -/
def createKubectlBinaryFilename (major minor : Str) : Str :=
  str "kubectl" ++ ('.' :: major) ++ ('.' :: minor)

/-- The filename selection inside FilepathBuilder.VersionedFilePath: the
default name upon nil version or failed normalization of either component. -/
def versionedKubectlFilename (serverVersion : Option VersionInfo) : Str :=
  match serverVersion with
  | none => kubectlDefaultName
  | some v =>
    match getMajorVersion (some v) with
    | Except.error _ => kubectlDefaultName
    | Except.ok majorVersion =>
      match getMinorVersion (some v) with
      | Except.error _ => kubectlDefaultName
      | Except.ok minorVersion => createKubectlBinaryFilename majorVersion minorVersion

/-- FilepathBuilder.DefaultFilePath. -/
def DefaultFilePath (dirGetter : DirGetter) : Str :=
  goJoin [currentDirectory dirGetter, kubectlDefaultName]

/-- FilepathBuilder.VersionedFilePath. -/
def VersionedFilePath (dirGetter : DirGetter) (serverVersion : Option VersionInfo) : Str :=
  goJoin [currentDirectory dirGetter, versionedKubectlFilename serverVersion]

/-! ### pkg/util -/

/-- RemoveAllElements from pkg/util: drop every element equal to r (the Go
in-place index loop removes exactly the matching elements, keeping order). -/
def removeAllElements (s : List Str) (r : Str) : List Str :=
  s.filter (fun x => x ≠ r)

/-- FilterList from pkg/util: remove all elements of every string in rl. -/
def filterList (l : List Str) (rl : List Str) : List Str :=
  rl.foldl (fun c r => removeAllElements c r) l

/-! ### pkg/dispatcher versionMatch -/

/-- versionMatch from pkg/dispatcher/dispatcher.go: true only when both infos
are non-nil and all four component normalizations succeed with matching
major and minor results. -/
def versionMatch (v1 v2 : Option VersionInfo) : Bool :=
  match v1, v2 with
  | some _, some _ =>
    match getMajorVersion v1 with
    | Except.error _ => false
    | Except.ok major1 =>
      match getMajorVersion v2 with
      | Except.error _ => false
      | Except.ok major2 =>
        match getMinorVersion v1 with
        | Except.error _ => false
        | Except.ok minor1 =>
          match getMinorVersion v2 with
          | Except.error _ => false
          | Except.ok minor2 => decide (major1 = major2 ∧ minor1 = minor2)
  | _, _ => false

/-! ### cmd/kubectl/kubectl.go main -/

/-- Modelled from the spec: FilepathBuilder.ValidateFilepath delegates to the
injected file-status probe (os.Stat in production) and fails with a
binary-not-found error exactly when the probe errors; its body is present in
the repository only through its tests and callers. The probe outcome is the
boolean oracle statOk. -/
def validateFilepath (statOk : Str → Bool) (p : Str) : Except Str Unit :=
  if statOk p then Except.ok () else Except.error (str "stat error")

/-- The terminal action of the dispatcher process: either the process image is
replaced via execve with a path, an argument vector and an environment, or the
process exits with a status code. -/
inductive MainOutcome where
  | exec (path : Str) (args : List Str) (env : List Str)
  | exit (code : Nat)
deriving DecidableEq

/-- The external world of one dispatcher invocation: the process argument
vector and environment, the directory-getter outcome, the file-status probe,
and the result of the remote server version query. -/
structure MainWorld where
  osArgs : List Str
  osEnv : List Str
  dirGetter : DirGetter
  statOk : Str → Bool
  serverVersion : Except Str VersionInfo

/-- The help-flag filtering performed by initFlags before flag parsing
(kubectl.go): the parse sees the argument tail with -h and --help removed.
The parsed flags only feed the remote query, whose result is the oracle. -/
def initFlagsParsedArgs (osArgs : List Str) : List Str :=
  removeAllElements (removeAllElements osArgs.tail (str "-h")) (str "--help")

/-- main from cmd/kubectl/kubectl.go: defensive copies of args and env, the
default path precomputed, versioned dispatch upon a successful query with
fallback to the default path, exit 1 only when the default path fails
validation. A failed execve logs and falls off the end of main (exit 0),
mirrored by the exec outcome carrying the attempted call. -/
def kubectlMain (w : MainWorld) : MainOutcome :=
  let args := w.osArgs
  let env := w.osEnv
  let kubectlDefaultFilepath := DefaultFilePath w.dirGetter
  match w.serverVersion with
  | Except.ok serverVersion =>
    let kubectlFilepath := VersionedFilePath w.dirGetter (some serverVersion)
    match validateFilepath w.statOk kubectlFilepath with
    | Except.ok _ => MainOutcome.exec kubectlFilepath args env
    | Except.error _ =>
      match validateFilepath w.statOk kubectlDefaultFilepath with
      | Except.ok _ => MainOutcome.exec kubectlDefaultFilepath args env
      | Except.error _ => MainOutcome.exit 1
  | Except.error _ =>
    match validateFilepath w.statOk kubectlDefaultFilepath with
    | Except.ok _ => MainOutcome.exec kubectlDefaultFilepath args env
    | Except.error _ => MainOutcome.exit 1

/-! ### pkg/client ServerVersionClient -/

/-- The external world of the server version client: the outcome of
Flags.ToDiscoveryClient (the delegate handle is opaque) and the result of the
n-th version query issued to the delegate. -/
structure SVWorld where
  toDiscovery : Except Str Unit
  queryResults : Nat → Except Str VersionInfo

/-- The mutable state of a ServerVersionClient across calls, with
instrumentation counting delegate constructions and delegate queries. -/
structure SVState where
  delegate : Option Unit
  queryCount : Nat
  constructCount : Nat
deriving DecidableEq

/-- ServerVersionClient.ServerVersion from pkg/client/version.go: construct
and cache the delegate on first use (the version result itself is not cached;
the body carries a TODO to implement caching), then query the delegate. -/
def serverVersionCall (w : SVWorld) (st : SVState) : Except Str VersionInfo × SVState :=
  match st.delegate with
  | none =>
    match w.toDiscovery with
    | Except.error e =>
      (Except.error e, { st with constructCount := st.constructCount + 1 })
    | Except.ok d =>
      let st1 : SVState :=
        { st with delegate := some d, constructCount := st.constructCount + 1 }
      (w.queryResults st1.queryCount, { st1 with queryCount := st1.queryCount + 1 })
  | some _ =>
    (w.queryResults st.queryCount, { st with queryCount := st.queryCount + 1 })

/-! ### pkg/dispatcher GetArgs and GetEnv over an explicit slice heap -/

/-- A heap of string-slice backing arrays, addressed by allocation index. -/
abbrev StrHeap := List (List Str)

/-- A Go slice value: a reference to a backing array in the heap. -/
structure SliceRef where
  id : Nat
deriving DecidableEq

/-- Contents of the array a slice refers to. -/
def readSlice (h : StrHeap) (r : SliceRef) : List Str :=
  h.getD r.id []

/-- Allocate a fresh backing array holding the given contents. -/
def allocSlice (h : StrHeap) (contents : List Str) : SliceRef × StrHeap :=
  (⟨h.length⟩, h ++ [contents])

/-- Write one element through a slice (s[i] = v). -/
def writeSlice (h : StrHeap) (r : SliceRef) (i : Nat) (v : Str) : StrHeap :=
  h.set r.id ((h.getD r.id []).set i v)

/-- CopyStrSlice from pkg/util: allocate a fresh array of the same length and
copy the contents into it. -/
def copyStrSlice (h : StrHeap) (s : SliceRef) : SliceRef × StrHeap :=
  allocSlice h (readSlice h s)

/-- The Dispatcher struct fields that refer to slices: the stored argument
vector and environment (pkg/dispatcher/dispatcher.go). -/
structure DispatcherH where
  argsRef : SliceRef
  envRef : SliceRef

/-- Dispatcher.GetArgs: a copy of the stored argument slice. -/
def getArgsH (h : StrHeap) (d : DispatcherH) : SliceRef × StrHeap :=
  copyStrSlice h d.argsRef

/-- Dispatcher.GetEnv: a copy of the stored environment slice. -/
def getEnvH (h : StrHeap) (d : DispatcherH) : SliceRef × StrHeap :=
  copyStrSlice h d.envRef

/-! ### Helper lemmas on normalization -/

theorem goAtoi_of_digits (l : Str) (h : l ≠ []) (hd : l.all goIsDigit = true) :
    goAtoi l =
      if l.all isAsciiDigit then
        (if digitsToNat l ≤ int64Max then some ((digitsToNat l : Int)) else none)
      else none := by
  match l, h with
  | c :: cs, _ =>
    have hc : goIsDigit c = true := by
      simp only [List.all_cons, Bool.and_eq_true] at hd
      exact hd.1
    have hcm : ¬(c = '-') := by
      intro e
      rw [e] at hc
      exact absurd hc (by decide)
    have hcp : ¬(c = '+') := by
      intro e
      rw [e] at hc
      exact absurd hc (by decide)
    simp only [goAtoi, if_neg hcm, if_neg hcp, goParseUnsigned]
    rw [if_neg (by simp)]
    by_cases hasc : (c :: cs).all isAsciiDigit = true
    · rw [if_pos hasc, if_pos hasc]
      simp only [Option.some_bind]
    · rw [if_neg hasc, if_neg hasc]
      simp only [Option.none_bind]

theorem isPositiveInteger_of_digits (l : Str) (h : l ≠ []) (hd : l.all goIsDigit = true) :
    (isPositiveInteger l = true ↔
      (l.all isAsciiDigit = true ∧ 0 < digitsToNat l ∧ digitsToNat l ≤ int64Max)) := by
  unfold isPositiveInteger
  rw [goAtoi_of_digits l h hd]
  by_cases hasc : l.all isAsciiDigit = true
  · rw [if_pos hasc]
    by_cases hb : digitsToNat l ≤ int64Max
    · rw [if_pos hb]
      simp [hasc, hb]
    · rw [if_neg hb]
      simp [hasc, hb]
  · rw [if_neg hasc]
    simp [hasc]

theorem normalizeComponent_ok_iff (s r : Str) :
    normalizeComponent s = Except.ok r ↔
      ((trimSpace s).takeWhile goIsDigit ≠ [] ∧
       ((trimSpace s).takeWhile goIsDigit).all isAsciiDigit = true ∧
       0 < digitsToNat ((trimSpace s).takeWhile goIsDigit) ∧
       digitsToNat ((trimSpace s).takeWhile goIsDigit) ≤ int64Max ∧
       r = (trimSpace s).takeWhile goIsDigit) := by
  by_cases ht : trimSpace s = []
  · simp [normalizeComponent, normalizeVersionStr, ht]
  · by_cases hr : (trimSpace s).takeWhile goIsDigit = []
    · simp [normalizeComponent, normalizeVersionStr, ht, hr]
    · have hiff := isPositiveInteger_of_digits _ hr List.all_takeWhile
      by_cases hp : isPositiveInteger ((trimSpace s).takeWhile goIsDigit) = true
      · have h2 := hiff.mp hp
        simp [normalizeComponent, normalizeVersionStr, ht, hr, hp, h2.1, h2.2.1,
          h2.2.2, eq_comm]
      · simp [normalizeComponent, normalizeVersionStr, ht, hr, hp]
        intro h1 h2 h3
        exact absurd (hiff.mpr ⟨List.all_eq_true.mpr h1, h2, h3⟩) hp

/-! ### Claims C3 and C10: normalization -/

/-- Claim C3 counterexample: two inputs refute the unamended claim. The
19-nines input begins (after trimming) with a non-empty decimal digit run of
strictly positive value, yet normalization fails, because strconv.Atoi rejects
values beyond the signed 64-bit range; and an input continuing with the
Arabic-Indic digit two (U+0662, category Nd so accumulated by unicode.IsDigit)
keeps that digit in the run and fails in strconv.Atoi instead of succeeding
with a positive value. -/
theorem normalizeComponent_overflow_cx :
    (((trimSpace (str "9999999999999999999")).takeWhile goIsDigit ≠ [] ∧
      0 < digitsToNat ((trimSpace (str "9999999999999999999")).takeWhile goIsDigit)) ∧
     isOkB (normalizeComponent (str "9999999999999999999")) = false) ∧
    ((trimSpace (str "1٢")).takeWhile goIsDigit = str "1٢" ∧
     isOkB (normalizeComponent (str "1٢")) = false) := by
  decide

/-- Claim C3 (amended): normalization of s succeeds exactly when, after
trimming whitespace, s begins with a non-empty run of Unicode decimal digits,
every character of that run is an ASCII digit 0 to 9, and the run's integer
value is strictly positive and within the signed 64-bit range checked by
strconv.Atoi; on success it returns that leading digit run, so 12, 12+,
12.3-gke.1 and a tab-and-newline-wrapped 12 all normalize to the run 12, while
empty, all-whitespace, non-digit-leading, zero-valued, and non-ASCII-digit-run
inputs fail. -/
theorem normalizeComponent_success_iff :
    (∀ s r : Str, normalizeComponent s = Except.ok r ↔
      ((trimSpace s).takeWhile goIsDigit ≠ [] ∧
       ((trimSpace s).takeWhile goIsDigit).all isAsciiDigit = true ∧
       0 < digitsToNat ((trimSpace s).takeWhile goIsDigit) ∧
       digitsToNat ((trimSpace s).takeWhile goIsDigit) ≤ int64Max ∧
       r = (trimSpace s).takeWhile goIsDigit)) ∧
    normalizeComponent (str "12") = Except.ok (str "12") ∧
    normalizeComponent (str "12+") = Except.ok (str "12") ∧
    normalizeComponent (str "12.3-gke.1") = Except.ok (str "12") ∧
    normalizeComponent (str "\t12\n") = Except.ok (str "12") ∧
    isOkB (normalizeComponent (str "")) = false ∧
    isOkB (normalizeComponent (str " \t\n ")) = false ∧
    isOkB (normalizeComponent (str "v12")) = false ∧
    isOkB (normalizeComponent (str "0")) = false ∧
    isOkB (normalizeComponent (str "00")) = false ∧
    isOkB (normalizeComponent (str "1\u0662")) = false :=
  ⟨fun s r => normalizeComponent_ok_iff s r, by decide, by decide, by decide,
   by decide, by decide, by decide, by decide, by decide, by decide, by decide⟩

/-- Witness for the amended claim C3 at the concrete input 7. -/
theorem normalizeComponent_success_iff_witness :
    normalizeComponent (str "7") = Except.ok (str "7") :=
  (normalizeComponent_success_iff.1 (str "7") (str "7")).mpr
    ⟨by decide, by decide, by decide, by decide, by decide⟩

/-- Claim C10 counterexample: two leading-zero inputs refute the unamended
claim. A leading-zero digit run whose nonzero value exceeds the signed 64-bit
range is rejected, and a leading-zero run continuing with the Arabic-Indic
digit two (U+0662, accumulated into the run by unicode.IsDigit) fails in
strconv.Atoi instead of normalizing to the run verbatim. -/
theorem normalizeComponent_leading_zero_overflow_cx :
    ((((trimSpace (str "09999999999999999999")).takeWhile goIsDigit).head? = some '0' ∧
      0 < digitsToNat ((trimSpace (str "09999999999999999999")).takeWhile goIsDigit)) ∧
     isOkB (normalizeComponent (str "09999999999999999999")) = false) ∧
    (((trimSpace (str "01٢")).takeWhile goIsDigit = str "01٢" ∧
      ((trimSpace (str "01٢")).takeWhile goIsDigit).head? = some '0') ∧
     isOkB (normalizeComponent (str "01٢")) = false) := by
  decide

/-- Claim C10 (amended): a component whose leading digit run consists of ASCII
digits with leading zeros but a nonzero value within the signed 64-bit range
normalizes to the digit run verbatim, not its canonical integer form, and the
composed versioned filename embeds the uncanonicalized run (kubectl.1.09, not
kubectl.1.9). -/
theorem normalizeComponent_leading_zeros_verbatim :
    (∀ s : Str,
      ((trimSpace s).takeWhile goIsDigit).head? = some '0' →
      ((trimSpace s).takeWhile goIsDigit).all isAsciiDigit = true →
      0 < digitsToNat ((trimSpace s).takeWhile goIsDigit) →
      digitsToNat ((trimSpace s).takeWhile goIsDigit) ≤ int64Max →
      normalizeComponent s = Except.ok ((trimSpace s).takeWhile goIsDigit)) ∧
    normalizeComponent (str "012") = Except.ok (str "012") ∧
    normalizeComponent (str "09.3-gke.1") = Except.ok (str "09") ∧
    VersionedFilePath (some (Except.ok (str "/foo/bar")))
      (some ⟨str "1", str "09.3-gke.1", []⟩) = str "/foo/bar/kubectl.1.09" ∧
    VersionedFilePath (some (Except.ok (str "/foo/bar")))
      (some ⟨str "1", str "09.3-gke.1", []⟩) ≠ str "/foo/bar/kubectl.1.9" := by
  refine ⟨?_, by decide, by decide, by decide, by decide⟩
  intro s hh hasc h1 h2
  have hne : (trimSpace s).takeWhile goIsDigit ≠ [] := by
    intro e
    rw [e] at hh
    exact absurd hh (by decide)
  exact (normalizeComponent_ok_iff s _).mpr ⟨hne, hasc, h1, h2, rfl⟩

/-- Witness for the amended claim C10 at the concrete input 07. -/
theorem normalizeComponent_leading_zeros_verbatim_witness :
    normalizeComponent (str "07") =
      Except.ok ((trimSpace (str "07")).takeWhile goIsDigit) :=
  normalizeComponent_leading_zeros_verbatim.1 (str "07")
    (by decide) (by decide) (by decide) (by decide)

/-! ### Claims C4, C5, C6: path building and version comparison -/

/-- Claim C4: for every server version that is absent or whose major or minor
component fails normalization, VersionedFilePath returns exactly the value of
DefaultFilePath (the function is total, so no error is ever produced). -/
theorem versionedFilePath_absent_eq_default (dirGetter : DirGetter)
    (sv : Option VersionInfo)
    (h : sv = none ∨ (∃ e, getMajorVersion sv = Except.error e) ∨
      (∃ e, getMinorVersion sv = Except.error e)) :
    VersionedFilePath dirGetter sv = DefaultFilePath dirGetter := by
  have hfn : versionedKubectlFilename sv = kubectlDefaultName := by
    rcases h with h | ⟨e, he⟩ | ⟨e, he⟩
    · rw [h]
      rfl
    · cases sv with
      | none => rfl
      | some v => simp [versionedKubectlFilename, he]
    · cases sv with
      | none => rfl
      | some v =>
        cases hM : getMajorVersion (some v) with
        | error eM => simp [versionedKubectlFilename, hM]
        | ok m => simp [versionedKubectlFilename, hM, he]
  unfold VersionedFilePath DefaultFilePath
  rw [hfn]

/-- Witness for claim C4: a non-numeric major maps to the default path. -/
theorem versionedFilePath_absent_eq_default_witness :
    VersionedFilePath (some (Except.ok (str "/foo/bar")))
        (some ⟨str "foo", str "9", []⟩) =
      DefaultFilePath (some (Except.ok (str "/foo/bar"))) :=
  versionedFilePath_absent_eq_default _ _
    (Or.inr (Or.inl ⟨str "Bad server version major/minor string", by decide⟩))

/-- createKubectlBinaryFilename written with the dots attached to the name. -/
theorem createKubectlBinaryFilename_eq (m n : Str) :
    createKubectlBinaryFilename m n = str "kubectl." ++ m ++ (str "." ++ n) := by
  unfold createKubectlBinaryFilename
  have h1 : str "kubectl." = str "kubectl" ++ ['.'] := rfl
  have h2 : str "." = ['.'] := rfl
  rw [h1, h2]
  simp [List.append_assoc]

/-- Claim C5: when both components normalize, VersionedFilePath is the
directory joined with the dot-separated name kubectl.major.minor; directory
/foo/bar with major 1 and minor 9 yields /foo/bar/kubectl.1.9 and never the
hyphenated kubectl-1.9. -/
theorem versionedFilePath_dotted_name (dirGetter : DirGetter) (v : VersionInfo)
    (m n : Str) (hM : getMajorVersion (some v) = Except.ok m)
    (hN : getMinorVersion (some v) = Except.ok n) :
    VersionedFilePath dirGetter (some v) =
      goJoin [currentDirectory dirGetter, str "kubectl." ++ m ++ (str "." ++ n)] ∧
    VersionedFilePath (some (Except.ok (str "/foo/bar"))) (some ⟨str "1", str "9", []⟩)
      = str "/foo/bar/kubectl.1.9" ∧
    VersionedFilePath (some (Except.ok (str "/foo/bar"))) (some ⟨str "1", str "9", []⟩)
      ≠ str "/foo/bar/kubectl-1.9" := by
  refine ⟨?_, by decide, by decide⟩
  unfold VersionedFilePath
  have hfn : versionedKubectlFilename (some v) = str "kubectl." ++ m ++ (str "." ++ n) := by
    simp [versionedKubectlFilename, hM, hN, createKubectlBinaryFilename_eq]
  rw [hfn]

/-- Witness for claim C5 at major 1, minor 11 in directory /dir. -/
theorem versionedFilePath_dotted_name_witness :
    VersionedFilePath (some (Except.ok (str "/dir"))) (some ⟨str "1", str "11", []⟩) =
      goJoin [currentDirectory (some (Except.ok (str "/dir"))),
        str "kubectl." ++ str "1" ++ (str "." ++ str "11")] :=
  (versionedFilePath_dotted_name (some (Except.ok (str "/dir")))
    ⟨str "1", str "11", []⟩ (str "1") (str "11") (by decide) (by decide)).1

/-- Claim C6: versionMatch is true exactly when both versions are present and
all four component normalizations succeed with equal major and equal minor
results; any absence or normalization failure gives false (the function is
total), and it is reflexive for any self-consistent version. -/
theorem versionMatch_iff :
    (∀ a b : Option VersionInfo,
      versionMatch a b = true ↔
        ∃ va vb m n, a = some va ∧ b = some vb ∧
          getMajorVersion a = Except.ok m ∧ getMajorVersion b = Except.ok m ∧
          getMinorVersion a = Except.ok n ∧ getMinorVersion b = Except.ok n) ∧
    (∀ (v : VersionInfo) (m n : Str), getMajorVersion (some v) = Except.ok m →
      getMinorVersion (some v) = Except.ok n →
      versionMatch (some v) (some v) = true) := by
  have hmain : ∀ a b : Option VersionInfo,
      versionMatch a b = true ↔
        ∃ va vb m n, a = some va ∧ b = some vb ∧
          getMajorVersion a = Except.ok m ∧ getMajorVersion b = Except.ok m ∧
          getMinorVersion a = Except.ok n ∧ getMinorVersion b = Except.ok n := by
    intro a b
    cases a with
    | none => simp [versionMatch]
    | some va =>
      cases b with
      | none => simp [versionMatch]
      | some vb =>
        cases hM1 : getMajorVersion (some va) with
        | error e1 => simp [versionMatch, hM1]
        | ok m1 =>
          cases hM2 : getMajorVersion (some vb) with
          | error e2 => simp [versionMatch, hM1, hM2]
          | ok m2 =>
            cases hN1 : getMinorVersion (some va) with
            | error e3 => simp [versionMatch, hM1, hM2, hN1]
            | ok n1 =>
              cases hN2 : getMinorVersion (some vb) with
              | error e4 => simp [versionMatch, hM1, hM2, hN1, hN2]
              | ok n2 =>
                simp only [versionMatch, hM1, hM2, hN1, hN2, decide_eq_true_eq,
                  Option.some.injEq, Except.ok.injEq]
                constructor
                · rintro ⟨rfl, rfl⟩
                  exact ⟨va, vb, m1, n1, rfl, rfl, rfl, rfl, rfl, rfl⟩
                · rintro ⟨va2, vb2, m, n, hva, hvb, h1, h2, h3, h4⟩
                  exact ⟨h1.trans h2.symm, h3.trans h4.symm⟩
  refine ⟨hmain, ?_⟩
  intro v m n hM hN
  exact (hmain (some v) (some v)).mpr ⟨v, v, m, n, rfl, rfl, hM, hM, hN, hN⟩

/-- Witness for claim C6: reflexivity at version 1.11. -/
theorem versionMatch_iff_witness :
    versionMatch (some ⟨str "1", str "11", str "v1.11.7"⟩)
      (some ⟨str "1", str "11", str "v1.11.7"⟩) = true :=
  versionMatch_iff.2 ⟨str "1", str "11", str "v1.11.7"⟩ (str "1") (str "11")
    (by decide) (by decide)

/-! ### Claim C7: directory-resolution failure never aborts path building -/

theorem splitSlash_of_no_slash (l : Str) (h : '/' ∉ l) : splitSlash l = [l] := by
  induction l with
  | nil => rfl
  | cons c rest ih =>
    have hc : ¬(c = '/') := fun e => h (by rw [e]; exact List.mem_cons_self _ _)
    have hrest : '/' ∉ rest := fun hm => h (List.mem_cons_of_mem _ hm)
    simp only [splitSlash, ih hrest]
    rw [if_neg hc]

theorem processElems_singleton (e : Str) (h0 : e ≠ []) (h1 : e ≠ ['.'])
    (h2 : e ≠ ['.', '.']) : processElems false [e] = [e] := by
  simp [processElems, h0, h1, h2]

theorem goClean_of_plain_name (l : Str) (c : Char) (hh : l.head? = some c)
    (hc : ¬(c = '/')) (hs : '/' ∉ l) (h1 : l ≠ ['.']) (h2 : l ≠ ['.', '.']) :
    goClean l = l := by
  have h0 : l ≠ [] := by
    intro e
    rw [e] at hh
    exact absurd hh (by simp)
  have hroot : ¬(l.head? = some '/') := by
    rw [hh]
    intro e
    exact hc (by injection e)
  unfold goClean
  rw [if_neg h0, if_neg hroot, splitSlash_of_no_slash l hs,
    processElems_singleton l h0 h1 h2]
  have hint : List.intercalate ['/'] [l] = l := by simp [List.intercalate]
  rw [hint]
  cases l with
  | nil => exact absurd rfl h0
  | cons a as => rfl

theorem goJoin_empty_dir (name : Str) (c : Char) (hh : name.head? = some c)
    (hc : ¬(c = '/')) (hs : '/' ∉ name) (h1 : name ≠ ['.'])
    (h2 : name ≠ ['.', '.']) : goJoin [[], name] = name := by
  have h0 : name ≠ [] := by
    intro e
    rw [e] at hh
    exact absurd hh (by simp)
  unfold goJoin
  have hdrop : ([[], name] : List Str).dropWhile (fun e => e = []) = [name] := by
    simp [List.dropWhile, h0]
  rw [hdrop]
  show goClean (List.intercalate ['/'] [name]) = name
  have hint : List.intercalate ['/'] [name] = name := by simp [List.intercalate]
  rw [hint]
  exact goClean_of_plain_name name c hh hc hs h1 h2

theorem all_digits_no_slash (l : Str) (h : l.all goIsDigit = true) : '/' ∉ l := by
  intro hm
  have hx := List.all_eq_true.mp h _ hm
  exact absurd hx (by decide)

theorem normalizeComponent_ok_digits (s r : Str)
    (h : normalizeComponent s = Except.ok r) :
    r.all goIsDigit = true ∧ r ≠ [] := by
  have h2 := (normalizeComponent_ok_iff s r).mp h
  constructor
  · rw [h2.2.2.2.2]
    exact List.all_takeWhile
  · rw [h2.2.2.2.2]
    exact h2.1

theorem versionedKubectlFilename_facts (sv : Option VersionInfo) :
    (versionedKubectlFilename sv).head? = some 'k' ∧
    '/' ∉ versionedKubectlFilename sv ∧
    versionedKubectlFilename sv ≠ ['.'] ∧
    versionedKubectlFilename sv ≠ ['.', '.'] := by
  cases sv with
  | none => exact ⟨rfl, by decide, by decide, by decide⟩
  | some v =>
    cases hM : getMajorVersion (some v) with
    | error e =>
      have hred : versionedKubectlFilename (some v) = kubectlDefaultName := by
        simp [versionedKubectlFilename, hM]
      rw [hred]
      exact ⟨rfl, by decide, by decide, by decide⟩
    | ok m =>
      cases hN : getMinorVersion (some v) with
      | error e =>
        have hred : versionedKubectlFilename (some v) = kubectlDefaultName := by
          simp [versionedKubectlFilename, hM, hN]
        rw [hred]
        exact ⟨rfl, by decide, by decide, by decide⟩
      | ok n =>
        have hred : versionedKubectlFilename (some v) = createKubectlBinaryFilename m n := by
          simp [versionedKubectlFilename, hM, hN]
        have hm := normalizeComponent_ok_digits v.major m hM
        have hn := normalizeComponent_ok_digits v.minor n hN
        have hhead : (createKubectlBinaryFilename m n).head? = some 'k' := rfl
        have hnos : '/' ∉ createKubectlBinaryFilename m n := by
          intro hmem
          unfold createKubectlBinaryFilename at hmem
          rcases List.mem_append.mp hmem with hmem1 | hmem2
          · rcases List.mem_append.mp hmem1 with ha | hb
            · exact absurd ha (by decide)
            · rcases List.mem_cons.mp hb with e | hm2
              · exact absurd e (by decide)
              · exact all_digits_no_slash m hm.1 hm2
          · rcases List.mem_cons.mp hmem2 with e | hn2
            · exact absurd e (by decide)
            · exact all_digits_no_slash n hn.1 hn2
        rw [hred]
        refine ⟨hhead, hnos, ?_, ?_⟩
        · intro e
          rw [e] at hhead
          exact absurd hhead (by decide)
        · intro e
          rw [e] at hhead
          exact absurd hhead (by decide)

/-- Claim C7: for a nil directory getter and for one whose resolution errors,
DefaultFilePath and VersionedFilePath still return a path — the bare relative
binary filename, i.e. the empty directory joined with the name — and, being
total functions of the getter outcome, never fail. -/
theorem filepathBuilder_empty_dir (dirGetter : DirGetter)
    (h : dirGetter = none ∨ ∃ e, dirGetter = some (Except.error e)) :
    currentDirectory dirGetter = [] ∧
    DefaultFilePath dirGetter = kubectlDefaultName ∧
    ∀ sv, VersionedFilePath dirGetter sv = versionedKubectlFilename sv ∧
      '/' ∉ VersionedFilePath dirGetter sv := by
  have hdir : currentDirectory dirGetter = [] := by
    rcases h with h | ⟨e, h⟩ <;> rw [h] <;> rfl
  refine ⟨hdir, ?_, ?_⟩
  · unfold DefaultFilePath
    rw [hdir]
    exact goJoin_empty_dir kubectlDefaultName 'k' rfl (by decide) (by decide)
      (by decide) (by decide)
  · intro sv
    have hf := versionedKubectlFilename_facts sv
    have heq : VersionedFilePath dirGetter sv = versionedKubectlFilename sv := by
      unfold VersionedFilePath
      rw [hdir]
      exact goJoin_empty_dir _ 'k' hf.1 (by decide) hf.2.1 hf.2.2.1 hf.2.2.2
    refine ⟨heq, ?_⟩
    rw [heq]
    exact hf.2.1

/-- Witness for claim C7: a nil getter still yields the bare default name and
a bare versioned name. -/
theorem filepathBuilder_empty_dir_witness :
    DefaultFilePath none = kubectlDefaultName ∧
    VersionedFilePath none (some ⟨str "1", str "9", []⟩) =
      versionedKubectlFilename (some ⟨str "1", str "9", []⟩) :=
  ⟨(filepathBuilder_empty_dir none (Or.inl rfl)).2.1,
   ((filepathBuilder_empty_dir none (Or.inl rfl)).2.2 (some ⟨str "1", str "9", []⟩)).1⟩

/-! ### Claims C1 and C2: the dispatch and fallback policy of main -/

/-- Claim C1: whenever main reaches the process-replacement call, the argument
vector and environment passed to it are exactly the invocation argv (argv[0]
included) and environment, unchanged; the help-flag filtering feeds only the
flag parse, never the exec arguments. -/
theorem kubectlMain_exec_preserves_argv_env (w : MainWorld) (p : Str)
    (a env : List Str) (h : kubectlMain w = MainOutcome.exec p a env) :
    a = w.osArgs ∧ env = w.osEnv := by
  simp only [kubectlMain, validateFilepath] at h
  cases hsv : w.serverVersion with
  | ok sv =>
    rw [hsv] at h
    by_cases h1 : w.statOk (VersionedFilePath w.dirGetter (some sv)) = true
    · simp only [h1, if_true, MainOutcome.exec.injEq] at h
      obtain ⟨hp, ha, he⟩ := h
      exact ⟨ha.symm, he.symm⟩
    · rw [Bool.not_eq_true] at h1
      by_cases h2 : w.statOk (DefaultFilePath w.dirGetter) = true
      · simp only [h1, h2, Bool.false_eq_true, if_false, if_true,
          MainOutcome.exec.injEq] at h
        obtain ⟨hp, ha, he⟩ := h
        exact ⟨ha.symm, he.symm⟩
      · rw [Bool.not_eq_true] at h2
        simp [h1, h2] at h
  | error e2 =>
    rw [hsv] at h
    by_cases h2 : w.statOk (DefaultFilePath w.dirGetter) = true
    · simp only [h2, if_true, MainOutcome.exec.injEq] at h
      obtain ⟨hp, ha, he⟩ := h
      exact ⟨ha.symm, he.symm⟩
    · rw [Bool.not_eq_true] at h2
      simp [h2] at h

/-- Witness for claim C1: a concrete invocation that reaches exec. -/
theorem kubectlMain_exec_preserves_argv_env_witness :
    ([str "kubectl", str "get", str "pods"] : List Str) =
      (MainWorld.mk [str "kubectl", str "get", str "pods"] [str "HOME=/home/u"]
        (some (Except.ok (str "/dir")))
        (fun q => decide (q = str "/dir/kubectl.1.11"))
        (Except.ok ⟨str "1", str "11", str "v1.11.7"⟩)).osArgs ∧
    ([str "HOME=/home/u"] : List Str) =
      (MainWorld.mk [str "kubectl", str "get", str "pods"] [str "HOME=/home/u"]
        (some (Except.ok (str "/dir")))
        (fun q => decide (q = str "/dir/kubectl.1.11"))
        (Except.ok ⟨str "1", str "11", str "v1.11.7"⟩)).osEnv :=
  kubectlMain_exec_preserves_argv_env
    (MainWorld.mk [str "kubectl", str "get", str "pods"] [str "HOME=/home/u"]
      (some (Except.ok (str "/dir")))
      (fun q => decide (q = str "/dir/kubectl.1.11"))
      (Except.ok ⟨str "1", str "11", str "v1.11.7"⟩))
    (str "/dir/kubectl.1.11") [str "kubectl", str "get", str "pods"]
    [str "HOME=/home/u"] (by decide)

/-- Claim C2: on a failed version query main falls back to the default path
and still dispatches when it validates; on a versioned path that fails
validation main validates the default path instead; exit 1 happens exactly
when the default path fails validation, and then no process replacement is
attempted. -/
theorem kubectlMain_fallback_policy (w : MainWorld) :
    ((∃ e, w.serverVersion = Except.error e) →
      (w.statOk (DefaultFilePath w.dirGetter) = true →
        kubectlMain w =
          MainOutcome.exec (DefaultFilePath w.dirGetter) w.osArgs w.osEnv) ∧
      (w.statOk (DefaultFilePath w.dirGetter) = false →
        kubectlMain w = MainOutcome.exit 1)) ∧
    (∀ sv, w.serverVersion = Except.ok sv →
      w.statOk (VersionedFilePath w.dirGetter (some sv)) = false →
      (w.statOk (DefaultFilePath w.dirGetter) = true →
        kubectlMain w =
          MainOutcome.exec (DefaultFilePath w.dirGetter) w.osArgs w.osEnv) ∧
      (w.statOk (DefaultFilePath w.dirGetter) = false →
        kubectlMain w = MainOutcome.exit 1)) ∧
    (kubectlMain w = MainOutcome.exit 1 →
      w.statOk (DefaultFilePath w.dirGetter) = false ∧
      ∀ p a env, kubectlMain w ≠ MainOutcome.exec p a env) := by
  refine ⟨?_, ?_, ?_⟩
  · rintro ⟨e, he⟩
    constructor
    · intro hd
      simp [kubectlMain, validateFilepath, he, hd]
    · intro hd
      simp [kubectlMain, validateFilepath, he, hd]
  · intro sv hsv hv
    constructor
    · intro hd
      simp [kubectlMain, validateFilepath, hsv, hv, hd]
    · intro hd
      simp [kubectlMain, validateFilepath, hsv, hv, hd]
  · intro hx
    have hd : w.statOk (DefaultFilePath w.dirGetter) = false := by
      by_cases hd2 : w.statOk (DefaultFilePath w.dirGetter) = true
      · exfalso
        simp only [kubectlMain, validateFilepath] at hx
        cases hsv : w.serverVersion with
        | ok sv =>
          rw [hsv] at hx
          by_cases h1 : w.statOk (VersionedFilePath w.dirGetter (some sv)) = true
          · simp [h1] at hx
          · rw [Bool.not_eq_true] at h1
            simp [h1, hd2] at hx
        | error e2 =>
          rw [hsv] at hx
          simp [hd2] at hx
      · rw [Bool.not_eq_true] at hd2
        exact hd2
    refine ⟨hd, ?_⟩
    intro p a env hcontra
    rw [hx] at hcontra
    exact absurd hcontra (by simp)

/-- Witness for claim C2: with a failing query and a missing default binary,
main exits 1. -/
theorem kubectlMain_fallback_policy_witness :
    kubectlMain
      (MainWorld.mk [str "kubectl"] [] (some (Except.ok (str "/dir")))
        (fun _ => false) (Except.error (str "network error"))) =
      MainOutcome.exit 1 :=
  ((kubectlMain_fallback_policy
      (MainWorld.mk [str "kubectl"] [] (some (Except.ok (str "/dir")))
        (fun _ => false) (Except.error (str "network error")))).1
    ⟨str "network error", rfl⟩).2 rfl

/-! ### Claim C8: the version client caches the delegate, not the result -/

/-- A delegate world in which the first and second queries answer with
different versions. -/
def svWorldTwoAnswers : SVWorld :=
  ⟨Except.ok (), fun n =>
    if n = 0 then Except.ok ⟨str "1", str "11", str "v1.11.7"⟩
    else Except.ok ⟨str "1", str "12", str "v1.12.0"⟩⟩

/-- Claim C8 counterexample: starting from a fresh client, the second
ServerVersion call does issue a second query to the delegate (the query count
reaches 2) and returns the second answer, not the first cached value. -/
theorem serverVersionCall_no_result_cache_cx :
    ((serverVersionCall svWorldTwoAnswers
        ((serverVersionCall svWorldTwoAnswers ⟨none, 0, 0⟩).2)).1 ≠
      (serverVersionCall svWorldTwoAnswers ⟨none, 0, 0⟩).1) ∧
    (serverVersionCall svWorldTwoAnswers
        ((serverVersionCall svWorldTwoAnswers ⟨none, 0, 0⟩).2)).2.queryCount = 2 ∧
    (serverVersionCall svWorldTwoAnswers
        ((serverVersionCall svWorldTwoAnswers ⟨none, 0, 0⟩).2)).2.constructCount = 1 := by
  decide

/-- Claim C8 (amended): within one process the delegate is constructed at most
once — a call finding a cached delegate reuses it without reconstructing —
but the version result is not cached: every call issues one fresh query to the
delegate and returns that query's result. -/
theorem serverVersionCall_delegate_reuse (w : SVWorld) (st : SVState) :
    (st.delegate = some () →
      serverVersionCall w st =
        (w.queryResults st.queryCount,
          { st with queryCount := st.queryCount + 1 })) ∧
    (st.delegate = none → w.toDiscovery = Except.ok () →
      serverVersionCall w st =
        (w.queryResults st.queryCount,
          ⟨some (), st.queryCount + 1, st.constructCount + 1⟩)) := by
  constructor
  · intro h
    simp [serverVersionCall, h]
  · intro h1 h2
    simp [serverVersionCall, h1, h2]

/-- Witness for the amended claim C8 at a concrete already-constructed
client state. -/
theorem serverVersionCall_delegate_reuse_witness :
    serverVersionCall svWorldTwoAnswers ⟨some (), 1, 1⟩ =
      (svWorldTwoAnswers.queryResults 1, ⟨some (), 2, 1⟩) :=
  (serverVersionCall_delegate_reuse svWorldTwoAnswers ⟨some (), 1, 1⟩).1 rfl

/-! ### Claim C9: GetArgs and GetEnv return fresh copies -/

theorem readSlice_append_frozen (h : StrHeap) (x : List Str) (j : Nat)
    (hj : j < h.length) : readSlice (h ++ [x]) ⟨j⟩ = readSlice h ⟨j⟩ := by
  unfold readSlice
  rw [List.getD_eq_getElem?_getD, List.getD_eq_getElem?_getD,
    List.getElem?_append_left hj]

theorem readSlice_write_other (h : StrHeap) (r : SliceRef) (i : Nat) (v : Str)
    (j : Nat) (hne : ¬(r.id = j)) :
    readSlice (writeSlice h r i v) ⟨j⟩ = readSlice h ⟨j⟩ := by
  unfold readSlice writeSlice
  simp only [List.getD_eq_getElem?_getD]
  rw [List.getElem?_set_ne hne]

theorem readSlice_alloc_new (h : StrHeap) (x : List Str) :
    readSlice (h ++ [x]) ⟨h.length⟩ = x := by
  unfold readSlice
  rw [List.getD_eq_getElem?_getD]
  simp

/-- Claim C9: the slices returned by GetArgs and GetEnv are fresh copies with
the stored contents; mutating a returned slice leaves the stored argument
vector and environment unchanged, and later GetArgs and GetEnv calls still
observe the originally stored strings. -/
theorem getArgs_getEnv_fresh_copies (h : StrHeap) (d : DispatcherH) (i : Nat)
    (v : Str) (hA : d.argsRef.id < h.length) (hE : d.envRef.id < h.length) :
    ((getArgsH h d).1.id ≠ d.argsRef.id ∧
     (getArgsH h d).1.id ≠ d.envRef.id ∧
     readSlice (getArgsH h d).2 (getArgsH h d).1 = readSlice h d.argsRef ∧
     readSlice (writeSlice (getArgsH h d).2 (getArgsH h d).1 i v) d.argsRef =
       readSlice h d.argsRef ∧
     readSlice (writeSlice (getArgsH h d).2 (getArgsH h d).1 i v) d.envRef =
       readSlice h d.envRef ∧
     readSlice (getArgsH (writeSlice (getArgsH h d).2 (getArgsH h d).1 i v) d).2
         (getArgsH (writeSlice (getArgsH h d).2 (getArgsH h d).1 i v) d).1 =
       readSlice h d.argsRef) ∧
    ((getEnvH h d).1.id ≠ d.argsRef.id ∧
     (getEnvH h d).1.id ≠ d.envRef.id ∧
     readSlice (getEnvH h d).2 (getEnvH h d).1 = readSlice h d.envRef ∧
     readSlice (writeSlice (getEnvH h d).2 (getEnvH h d).1 i v) d.argsRef =
       readSlice h d.argsRef ∧
     readSlice (writeSlice (getEnvH h d).2 (getEnvH h d).1 i v) d.envRef =
       readSlice h d.envRef ∧
     readSlice (getEnvH (writeSlice (getEnvH h d).2 (getEnvH h d).1 i v) d).2
         (getEnvH (writeSlice (getEnvH h d).2 (getEnvH h d).1 i v) d).1 =
       readSlice h d.envRef) := by
  have hargs : ∀ ref : SliceRef, ref.id < h.length →
      (∀ j : SliceRef, j.id < h.length →
        readSlice (writeSlice (copyStrSlice h ref).2 (copyStrSlice h ref).1 i v) j =
          readSlice h j) := by
    intro ref href j hj
    show readSlice (writeSlice (h ++ [readSlice h ref]) ⟨h.length⟩ i v) j = readSlice h j
    have hne : ¬((h.length : Nat) = j.id) := by
      intro e
      rw [← e] at hj
      exact absurd hj (lt_irrefl _)
    calc readSlice (writeSlice (h ++ [readSlice h ref]) ⟨h.length⟩ i v) j
        = readSlice (writeSlice (h ++ [readSlice h ref]) ⟨h.length⟩ i v) ⟨j.id⟩ := rfl
      _ = readSlice (h ++ [readSlice h ref]) ⟨j.id⟩ :=
          readSlice_write_other _ _ i v j.id hne
      _ = readSlice h ⟨j.id⟩ := readSlice_append_frozen h _ j.id hj
      _ = readSlice h j := rfl
  constructor
  · refine ⟨?_, ?_, ?_, ?_, ?_, ?_⟩
    · show (h.length : Nat) ≠ d.argsRef.id
      intro e
      rw [e] at hA
      exact absurd hA (lt_irrefl _)
    · show (h.length : Nat) ≠ d.envRef.id
      intro e
      rw [e] at hE
      exact absurd hE (lt_irrefl _)
    · exact readSlice_alloc_new h _
    · exact hargs d.argsRef hA d.argsRef hA
    · exact hargs d.argsRef hA d.envRef hE
    · show readSlice
          (writeSlice (getArgsH h d).2 (getArgsH h d).1 i v ++
            [readSlice (writeSlice (getArgsH h d).2 (getArgsH h d).1 i v) d.argsRef])
          ⟨(writeSlice (getArgsH h d).2 (getArgsH h d).1 i v).length⟩ =
        readSlice h d.argsRef
      rw [readSlice_alloc_new]
      exact hargs d.argsRef hA d.argsRef hA
  · refine ⟨?_, ?_, ?_, ?_, ?_, ?_⟩
    · show (h.length : Nat) ≠ d.argsRef.id
      intro e
      rw [e] at hA
      exact absurd hA (lt_irrefl _)
    · show (h.length : Nat) ≠ d.envRef.id
      intro e
      rw [e] at hE
      exact absurd hE (lt_irrefl _)
    · exact readSlice_alloc_new h _
    · exact hargs d.envRef hE d.argsRef hA
    · exact hargs d.envRef hE d.envRef hE
    · show readSlice
          (writeSlice (getEnvH h d).2 (getEnvH h d).1 i v ++
            [readSlice (writeSlice (getEnvH h d).2 (getEnvH h d).1 i v) d.envRef])
          ⟨(writeSlice (getEnvH h d).2 (getEnvH h d).1 i v).length⟩ =
        readSlice h d.envRef
      rw [readSlice_alloc_new]
      exact hargs d.envRef hE d.envRef hE

/-- Witness for claim C9: a two-slice heap with argument vector at index 0 and
environment at index 1. -/
theorem getArgs_getEnv_fresh_copies_witness :
    readSlice
        (writeSlice (getArgsH [[str "kubectl"], [str "HOME=1"]] ⟨⟨0⟩, ⟨1⟩⟩).2
          (getArgsH [[str "kubectl"], [str "HOME=1"]] ⟨⟨0⟩, ⟨1⟩⟩).1 0 (str "boom"))
        (⟨0⟩ : SliceRef) =
      readSlice [[str "kubectl"], [str "HOME=1"]] (⟨0⟩ : SliceRef) :=
  ((getArgs_getEnv_fresh_copies [[str "kubectl"], [str "HOME=1"]] ⟨⟨0⟩, ⟨1⟩⟩ 0
      (str "boom") (by decide) (by decide)).1).2.2.2.1
